import Mathlib

/-!
Shallow embedding of the expense-tracker application `src/app.py`
(Költségkövető). Amounts are modelled as exact rationals (`ℚ`), calendar
dates as year/month/day triples with the lexicographic order that Python
`datetime.date` comparison realises, and the persisted JSON file as an
explicit JSON value (or a missing / malformed file). The Streamlit UI
layer is out of scope; the embedded functions are the data-handling
fragments the spec describes: `load_data` / `save_data` /
`load_settings`, the date/kind/category filter mask of
`oldal_tetelek_listaja`, the expense/income/balance sums, the
per-category grouping of `oldal_statisztika`, the monthly budget check,
and the submit handlers for creating, editing and deleting an entry.
-/

namespace Koltsegkoveto

/-- Entry kind: `"kiadas"` (expense) or `"bevetel"` (income). -/
inductive Tipus where
  | kiadas
  | bevetel
deriving DecidableEq, Repr

/-- Calendar date as stored in memory (`datetime.date`). -/
structure Datum where
  year : Nat
  month : Nat
  day : Nat
deriving DecidableEq, Repr

/-- Python `date` comparison `a <= b`: lexicographic on (year, month, day). -/
def Datum.dle (a b : Datum) : Bool :=
  decide (a.year < b.year) ||
    (decide (a.year = b.year) &&
      (decide (a.month < b.month) ||
        (decide (a.month = b.month) && decide (a.day ≤ b.day))))

/-- One in-memory entry (a row of `get_dataframe` / one dict of `data`):
date, amount, category, note, kind. -/
structure Entry where
  datum : Datum
  osszeg : ℚ
  kategoria : String
  megjegyzes : String
  tipus : Tipus
deriving DecidableEq, Repr

/-- Sum of the `osszeg` column of a list of entries (`df["osszeg"].sum()`). -/
def osszegSum (l : List Entry) : ℚ :=
  (l.map Entry.osszeg).sum

/-- `df.loc[df["tipus"] == "kiadas", "osszeg"].sum()` — total expenses. -/
def kiadasTotal (l : List Entry) : ℚ :=
  osszegSum (l.filter (fun e => decide (e.tipus = Tipus.kiadas)))

/-- `df.loc[df["tipus"] == "bevetel", "osszeg"].sum()` — total income. -/
def bevetelTotal (l : List Entry) : ℚ :=
  osszegSum (l.filter (fun e => decide (e.tipus = Tipus.bevetel)))

/-- `egyenleg = bevetel - kiadasok` — net balance. -/
def egyenleg (l : List Entry) : ℚ :=
  bevetelTotal l - kiadasTotal l

/-- `groupby("kategoria")["osszeg"].sum()` restricted to one category `c`:
the total amount of the entries whose category is `c`. -/
def kategoriaTotal (l : List Entry) (c : String) : ℚ :=
  osszegSum (l.filter (fun e => decide (e.kategoria = c)))

/-- Expenses of the current calendar month:
`df[(df["honap"] == aktualis_honap) & (df["tipus"] == "kiadas")]["osszeg"].sum()`. -/
def haviKiadas (l : List Entry) (today : Datum) : ℚ :=
  osszegSum (l.filter (fun e =>
    decide (e.datum.year = today.year) && decide (e.datum.month = today.month) &&
      decide (e.tipus = Tipus.kiadas)))

/-- Outcome of the budget display: normal, over-80% warning, or exceeded. -/
inductive KeretState where
  | normal
  | warning
  | exceeded
deriving DecidableEq, Repr

/-- The budget block of `oldal_statisztika` (and, identically,
`oldal_dashboard`): when `havi_keret > 0` it computes
`felhasznalt_szazalek = havi_kiadas / havi_keret` and shows the error
(exceeded) when `havi_kiadas > havi_keret`, the warning when
`havi_kiadas > havi_keret * 0.8`, otherwise neither; when the stored
budget is not positive the whole check is skipped (`none`). -/
def keret_ellenorzes (havi_kiadas havi_keret : ℚ) : Option (ℚ × KeretState) :=
  if 0 < havi_keret then
    some (havi_kiadas / havi_keret,
      if havi_keret < havi_kiadas then KeretState.exceeded
      else if havi_keret * 0.8 < havi_kiadas then KeretState.warning
      else KeretState.normal)
  else none

/-- The budget check of the statistics page over the entry list: spent =
current-month expenses, budget = `settings.get("havi_keret", 0.0)`. -/
def statisztika_keret (l : List Entry) (today : Datum) (havi_keret : ℚ) :
    Option (ℚ × KeretState) :=
  keret_ellenorzes (haviKiadas l today) havi_keret

/-- The date part of the filter mask:
`(df["datum"] >= kezdo) & (df["datum"] <= veg)`. -/
def datumSzuro (kezdo veg : Datum) (e : Entry) : Bool :=
  Datum.dle kezdo e.datum && Datum.dle e.datum veg

/-- The full filter mask of `oldal_tetelek_listaja`: the date-range mask,
then `maszk &= df["tipus"].isin(tipus_szuro)` only when the kind
selection is non-empty, then `maszk &= df["kategoria"].isin(kategoria_szuro)`
only when the category selection is non-empty. -/
def maszk (kezdo veg : Datum) (tipus_szuro : List Tipus)
    (kategoria_szuro : List String) (e : Entry) : Bool :=
  let m := datumSzuro kezdo veg e
  let m := if tipus_szuro.isEmpty then m else m && tipus_szuro.contains e.tipus
  let m := if kategoria_szuro.isEmpty then m else
    m && kategoria_szuro.contains e.kategoria
  m

/-- `szurt = df[maszk]` — the filtered entry list. -/
def szurt (l : List Entry) (kezdo veg : Datum) (tipus_szuro : List Tipus)
    (kategoria_szuro : List String) : List Entry :=
  l.filter (maszk kezdo veg tipus_szuro kategoria_szuro)

/-! ### Persistence: JSON values and the entry / settings files -/

/-- JSON values, as `json.load` produces them. -/
inductive Json where
  | null
  | bool (b : Bool)
  | num (q : ℚ)
  | str (s : String)
  | arr (xs : List Json)
  | obj (fields : List (String × Json))

/-- State of a persisted file: absent, present but not decodable as JSON
(`json.JSONDecodeError`), or present with a decoded JSON value. -/
inductive FileState where
  | missing
  | malformed
  | content (j : Json)

/-- Left-pad a numeral with zeros to width `w` (`datetime.date.isoformat`
prints year to 4 and month/day to 2 digits). -/
def padNum (w : Nat) (n : Nat) : String :=
  let s := toString n
  String.mk (List.replicate (w - s.length) '0') ++ s

/-- `datum.isoformat()` — the `YYYY-MM-DD` string stored on disk. -/
def Datum.iso (d : Datum) : String :=
  padNum 4 d.year ++ "-" ++ padNum 2 d.month ++ "-" ++ padNum 2 d.day

/-- The on-disk string of a kind tag. -/
def tipusStr : Tipus → String
  | Tipus.kiadas => "kiadas"
  | Tipus.bevetel => "bevetel"

/-- The JSON object an in-memory entry is serialised to, with the key
order used by `oldal_uj_tetel`. -/
def entryToJson (e : Entry) : Json :=
  Json.obj [("datum", Json.str e.datum.iso), ("osszeg", Json.num e.osszeg),
    ("kategoria", Json.str e.kategoria), ("megjegyzes", Json.str e.megjegyzes),
    ("tipus", Json.str (tipusStr e.tipus))]

/-- `save_data(data)`: `json.dump` of the whole list overwrites the file,
so afterwards the file holds exactly the serialised records. -/
def save_data (data : List Entry) : FileState :=
  FileState.content (Json.arr (data.map entryToJson))

/-- Python `"tipus" in t` / `"tipus" not in t`: key membership for a
dict, element equality for a list (a non-string element never equals a
string), substring test for a string; a `TypeError` (modelled as
`Except.error ()`) for `None`, booleans and numbers, which are not
containers. -/
def pyContains (key : String) : Json → Except Unit Bool
  | Json.obj fs => Except.ok (fs.any (fun p => decide (p.1 = key)))
  | Json.arr xs => Except.ok (xs.any (fun t =>
      match t with
      | Json.str s => decide (s = key)
      | _ => false))
  | Json.str s => Except.ok (decide (key.toList.IsInfix s.toList))
  | _ => Except.error ()

/-- One iteration of the compatibility loop of `load_data`: when the
record has no `"tipus"` entry, `t["tipus"] = "kiadas"` back-fills it —
item assignment succeeds on a dict (appending the new key) and raises
`TypeError` on anything else. -/
def pyBackfill (t : Json) : Except Unit Json := do
  let c ← pyContains "tipus" t
  if c then
    pure t
  else
    match t with
    | Json.obj fs => pure (Json.obj (fs ++ [("tipus", Json.str "kiadas")]))
    | _ => Except.error ()

/-- The `for t in data` loop of `load_data`: apply `pyBackfill` to each
element, propagating the first uncaught exception. -/
def backfillAll : List Json → Except Unit (List Json)
  | [] => Except.ok []
  | x :: xs =>
    match pyBackfill x with
    | Except.error e => Except.error e
    | Except.ok y =>
      match backfillAll xs with
      | Except.error e => Except.error e
      | Except.ok ys => Except.ok (y :: ys)

/-- `load_data()`: a missing file yields `[]`; a `json.JSONDecodeError`
is caught and yields `[]`; decoded content that is not a list yields
`[]`; otherwise the compatibility loop runs over the elements and any
`TypeError` it raises escapes to the caller (`Except.error`). -/
def load_data (f : FileState) : Except Unit (List Json) :=
  match f with
  | FileState.missing => Except.ok []
  | FileState.malformed => Except.ok []
  | FileState.content j =>
    match j with
    | Json.arr xs => backfillAll xs
    | _ => Except.ok []

/-- `load_settings()`: a missing file, caught `JSONDecodeError`, or a
decoded value that is not a dict yields `{}`; a dict is returned as is.
Total — it never raises. -/
def load_settings (f : FileState) : List (String × Json) :=
  match f with
  | FileState.missing => []
  | FileState.malformed => []
  | FileState.content (Json.obj fs) => fs
  | FileState.content _ => []

/-- `True` exactly for a JSON object (a Python dict). -/
def Json.isObj : Json → Bool
  | Json.obj _ => true
  | _ => false

/-- Whether a JSON object carries a `"tipus"` key (`false` on non-objects). -/
def hasTipusKey : Json → Bool
  | Json.obj fs => fs.any (fun p => decide (p.1 = "tipus"))
  | _ => false

/-- Look up a key in a JSON object (first occurrence), `none` otherwise. -/
def dictGet (j : Json) (key : String) : Option Json :=
  match j with
  | Json.obj fs =>
    match fs.find? (fun p => decide (p.1 = key)) with
    | some p => some p.2
    | none => none
  | _ => none

/-! ### Submit handlers (create / edit / delete) -/

/-- Result of a form submission: the in-memory list afterwards, the file
content written by `save_data` (`none` when nothing was persisted), and
whether a user-visible error message was shown instead. -/
structure SubmitResult where
  store : List Entry
  saved : Option FileState
  hiba : Bool

/-- The submit branch of `oldal_uj_tetel`: a non-positive amount shows
`st.error` and returns with nothing changed; otherwise the new entry
(note stripped) is appended and the whole list saved. -/
def uj_tetel_submit (data : List Entry) (datum : Datum) (osszeg : ℚ)
    (kategoria megjegyzes : String) (tipus_kod : Tipus) : SubmitResult :=
  if osszeg ≤ 0 then
    ⟨data, none, true⟩
  else
    let uj : Entry := ⟨datum, osszeg, kategoria, megjegyzes.trim, tipus_kod⟩
    let d := data ++ [uj]
    ⟨d, some (save_data d), false⟩

/-- The edit branch of `oldal_tetelek_listaja`: a non-positive amount
shows `st.error` and changes nothing; otherwise all five fields of the
record at `selected_id` are overwritten and the whole list saved. -/
def edit_submit (data : List Entry) (selected_id : Nat) (datum : Datum)
    (osszeg : ℚ) (kategoria megjegyzes : String) (tipus_kod : Tipus) :
    SubmitResult :=
  if osszeg ≤ 0 then
    ⟨data, none, true⟩
  else
    let d := data.set selected_id ⟨datum, osszeg, kategoria, megjegyzes.trim, tipus_kod⟩
    ⟨d, some (save_data d), false⟩

/-- The delete branch of `oldal_tetelek_listaja`:
`data.pop(selected_id)` then `save_data(data)`. -/
def torles_submit (data : List Entry) (selected_id : Nat) : SubmitResult :=
  let d := data.eraseIdx selected_id
  ⟨d, some (save_data d), false⟩

/-- The effect of the compatibility loop on one record that is a JSON
object: unchanged when it already carries a `"tipus"` key, otherwise the
key is appended with value `"kiadas"`. -/
def backfillObj (t : Json) : Json :=
  match t with
  | Json.obj fs =>
    if fs.any (fun p => decide (p.1 = "tipus")) then Json.obj fs
    else Json.obj (fs ++ [("tipus", Json.str "kiadas")])
  | _ => t

/-- The expense entry of the spec's running example:
2024-01-05, 500, food, expense. -/
def peldaKiadas : Entry := ⟨⟨2024, 1, 5⟩, 500, "food", "", Tipus.kiadas⟩

/-- The income entry of the spec's running example:
2024-01-10, 2000, salary, income. -/
def peldaBevetel : Entry := ⟨⟨2024, 1, 10⟩, 2000, "salary", "", Tipus.bevetel⟩

/-- The spec's two-entry example list. -/
def peldaLista : List Entry := [peldaKiadas, peldaBevetel]

/-! ### Helper lemmas -/

theorem osszegSum_nil : osszegSum [] = 0 := rfl

theorem osszegSum_cons (e : Entry) (t : List Entry) :
    osszegSum (e :: t) = e.osszeg + osszegSum t := by
  simp [osszegSum]

theorem osszegSum_filter_ite (p : Entry → Bool) (l : List Entry) :
    osszegSum (l.filter p) =
      (l.map (fun e => if p e = true then e.osszeg else 0)).sum := by
  induction l with
  | nil => rfl
  | cons e t ih =>
    by_cases h : p e = true <;>
      simp [List.filter_cons, h, osszegSum_cons, ih]

theorem kategoriaTotal_cons (e : Entry) (t : List Entry) (c : String) :
    kategoriaTotal (e :: t) c =
      (if e.kategoria = c then e.osszeg else 0) + kategoriaTotal t c := by
  by_cases h : e.kategoria = c <;>
    simp [kategoriaTotal, osszegSum, List.filter_cons, h]

theorem osszeg_particio (l : List Entry) (s : Finset String)
    (h : ∀ e ∈ l, e.kategoria ∈ s) :
    osszegSum l = ∑ c ∈ s, kategoriaTotal l c := by
  induction l with
  | nil => simp [osszegSum, kategoriaTotal]
  | cons e t ih =>
    have he : e.kategoria ∈ s := h e (List.mem_cons_self e t)
    have ht : ∀ x ∈ t, x.kategoria ∈ s :=
      fun x hx => h x (List.mem_cons_of_mem _ hx)
    calc osszegSum (e :: t) = e.osszeg + osszegSum t := osszegSum_cons e t
      _ = e.osszeg + ∑ c ∈ s, kategoriaTotal t c := by rw [ih ht]
      _ = (∑ c ∈ s, if e.kategoria = c then e.osszeg else 0) +
            ∑ c ∈ s, kategoriaTotal t c := by
            rw [Finset.sum_ite_eq s e.kategoria (fun _ => e.osszeg), if_pos he]
      _ = ∑ c ∈ s, ((if e.kategoria = c then e.osszeg else 0) +
            kategoriaTotal t c) := (Finset.sum_add_distrib).symm
      _ = ∑ c ∈ s, kategoriaTotal (e :: t) c :=
            Finset.sum_congr rfl fun c _ => (kategoriaTotal_cons e t c).symm

/-! ### Claim theorems -/

/-- C4: the expense total sums exactly the amounts of expense entries,
the income total sums exactly the amounts of income entries, the balance
is income minus expenses; on the spec's example list the totals are
500, 2000 and 1500. -/
theorem osszesites_spec :
    (∀ l : List Entry, kiadasTotal l =
      (l.map (fun e => if e.tipus = Tipus.kiadas then e.osszeg else 0)).sum) ∧
    (∀ l : List Entry, bevetelTotal l =
      (l.map (fun e => if e.tipus = Tipus.bevetel then e.osszeg else 0)).sum) ∧
    (∀ l : List Entry, egyenleg l = bevetelTotal l - kiadasTotal l) ∧
    kiadasTotal peldaLista = 500 ∧ bevetelTotal peldaLista = 2000 ∧
    egyenleg peldaLista = 1500 := by
  refine ⟨fun l => ?_, fun l => ?_, fun l => rfl, ?_, ?_, ?_⟩
  · rw [kiadasTotal, osszegSum_filter_ite]
    simp
  · rw [bevetelTotal, osszegSum_filter_ite]
    simp
  · simp [kiadasTotal, osszegSum, peldaLista, peldaKiadas, peldaBevetel,
      List.filter_cons]
  · simp [bevetelTotal, osszegSum, peldaLista, peldaKiadas, peldaBevetel,
      List.filter_cons]
  · simp [egyenleg, kiadasTotal, bevetelTotal, osszegSum, peldaLista,
      peldaKiadas, peldaBevetel, List.filter_cons]
    norm_num

/-- C9: for every entry set, the total of all amounts equals the sum of
the per-category totals over the categories partitioning the set (any
category set covering every entry's category). -/
theorem osszeg_particio_spec (l : List Entry) (s : Finset String)
    (h : ∀ e ∈ l, e.kategoria ∈ s) :
    osszegSum l = ∑ c ∈ s, kategoriaTotal l c :=
  osszeg_particio l s h

/-- Witness for C9 at the spec's example list with its two categories. -/
theorem osszeg_particio_spec_witness :
    (∀ e ∈ peldaLista,
      e.kategoria ∈ ({"food", "salary"} : Finset String)) ∧
    osszegSum peldaLista =
      ∑ c ∈ ({"food", "salary"} : Finset String),
        kategoriaTotal peldaLista c :=
  ⟨by decide, osszeg_particio_spec peldaLista {"food", "salary"} (by decide)⟩

/-- C1: over the current calendar month's expense entries, with a
positive stored budget the check reports exactly spent/budget and the
state is exceeded iff spent exceeds the budget, warning iff spent is
within the budget but above 80% of it, and normal iff spent is at most
80% of it; with the stored budget 0 no check is performed. -/
theorem keret_spec (l : List Entry) (today : Datum) (keret : ℚ) :
    (keret = 0 → statisztika_keret l today keret = none) ∧
    (0 < keret →
      ∃ pct st, statisztika_keret l today keret = some (pct, st) ∧
        pct = haviKiadas l today / keret ∧
        (st = KeretState.exceeded ↔ keret < haviKiadas l today) ∧
        (st = KeretState.warning ↔
          haviKiadas l today ≤ keret ∧ keret * 0.8 < haviKiadas l today) ∧
        (st = KeretState.normal ↔ haviKiadas l today ≤ keret * 0.8)) := by
  constructor
  · rintro rfl
    simp [statisztika_keret, keret_ellenorzes]
  · intro hk
    rw [statisztika_keret, keret_ellenorzes, if_pos hk]
    by_cases h1 : keret < haviKiadas l today
    · rw [if_pos h1]
      refine ⟨_, _, rfl, rfl, by simp [h1], ?_, ?_⟩
      · constructor
        · intro h
          exact absurd h (by decide)
        · rintro ⟨h2, _⟩
          exact absurd h1 (not_lt.mpr h2)
      · constructor
        · intro h
          exact absurd h (by decide)
        · intro h2
          exfalso
          linarith
    · rw [if_neg h1]
      by_cases h2 : keret * 0.8 < haviKiadas l today
      · rw [if_pos h2]
        refine ⟨_, _, rfl, rfl, ?_, ?_, ?_⟩
        · constructor
          · intro h
            exact absurd h (by decide)
          · intro h
            exact absurd h h1
        · simp [h2, not_lt.mp h1]
        · constructor
          · intro h
            exact absurd h (by decide)
          · intro h3
            exact absurd h2 (not_lt.mpr h3)
      · rw [if_neg h2]
        refine ⟨_, _, rfl, rfl, ?_, ?_, ?_⟩
        · constructor
          · intro h
            exact absurd h (by decide)
          · intro h
            exact absurd h h1
        · constructor
          · intro h
            exact absurd h (by decide)
          · rintro ⟨_, h3⟩
            exact absurd h3 h2
        · simp [not_lt.mp h2]

/-- Witness for C1: no check with budget 0, and a full check with budget
10000 over the example list (spent = 500 in January 2024). -/
theorem keret_spec_witness :
    statisztika_keret peldaLista ⟨2024, 1, 15⟩ 0 = none ∧
    (∃ pct st,
      statisztika_keret peldaLista ⟨2024, 1, 15⟩ 10000 = some (pct, st) ∧
      pct = haviKiadas peldaLista ⟨2024, 1, 15⟩ / 10000 ∧
      (st = KeretState.exceeded ↔
        10000 < haviKiadas peldaLista ⟨2024, 1, 15⟩) ∧
      (st = KeretState.warning ↔
        haviKiadas peldaLista ⟨2024, 1, 15⟩ ≤ 10000 ∧
          10000 * 0.8 < haviKiadas peldaLista ⟨2024, 1, 15⟩) ∧
      (st = KeretState.normal ↔
        haviKiadas peldaLista ⟨2024, 1, 15⟩ ≤ 10000 * 0.8)) :=
  ⟨(keret_spec peldaLista ⟨2024, 1, 15⟩ 0).1 rfl,
   (keret_spec peldaLista ⟨2024, 1, 15⟩ 10000).2 (by norm_num)⟩

/-- C2: with no kind/category selection, filtering returns exactly the
entries within the inclusive date range; with non-empty kind and
category selections the result is exactly the conjunction of the
date-range, kind and category conditions. -/
theorem szurt_spec (l : List Entry) (kezdo veg : Datum) (ts : List Tipus)
    (ks : List String) (e : Entry) (hts : ts ≠ []) (hks : ks ≠ []) :
    (e ∈ szurt l kezdo veg [] [] ↔
      e ∈ l ∧ Datum.dle kezdo e.datum = true ∧ Datum.dle e.datum veg = true) ∧
    (e ∈ szurt l kezdo veg ts ks ↔
      e ∈ l ∧ (Datum.dle kezdo e.datum = true ∧ Datum.dle e.datum veg = true) ∧
        e.tipus ∈ ts ∧ e.kategoria ∈ ks) := by
  have hts2 : ts.isEmpty = false := by
    cases ts with
    | nil => exact absurd rfl hts
    | cons a t => rfl
  have hks2 : ks.isEmpty = false := by
    cases ks with
    | nil => exact absurd rfl hks
    | cons a t => rfl
  constructor
  · simp [szurt, List.mem_filter, maszk, datumSzuro, and_assoc]
  · simp [szurt, List.mem_filter, maszk, datumSzuro, hts2, hks2, and_assoc]

/-- Witness for C2: the example expense entry passes the combined filter
over the example list with non-empty kind and category selections. -/
theorem szurt_spec_witness :
    ([Tipus.kiadas] ≠ ([] : List Tipus)) ∧ (["food"] ≠ ([] : List String)) ∧
    ((peldaKiadas ∈ szurt peldaLista ⟨2024, 1, 1⟩ ⟨2024, 12, 31⟩ [] [] ↔
      peldaKiadas ∈ peldaLista ∧
        Datum.dle ⟨2024, 1, 1⟩ peldaKiadas.datum = true ∧
        Datum.dle peldaKiadas.datum ⟨2024, 12, 31⟩ = true) ∧
    (peldaKiadas ∈
        szurt peldaLista ⟨2024, 1, 1⟩ ⟨2024, 12, 31⟩ [Tipus.kiadas] ["food"] ↔
      peldaKiadas ∈ peldaLista ∧
        (Datum.dle ⟨2024, 1, 1⟩ peldaKiadas.datum = true ∧
          Datum.dle peldaKiadas.datum ⟨2024, 12, 31⟩ = true) ∧
        peldaKiadas.tipus ∈ [Tipus.kiadas] ∧ peldaKiadas.kategoria ∈ ["food"])) :=
  ⟨by decide, by decide,
    szurt_spec peldaLista ⟨2024, 1, 1⟩ ⟨2024, 12, 31⟩ [Tipus.kiadas] ["food"]
      peldaKiadas (by decide) (by decide)⟩

/-- C10: an empty kind selection or an empty category selection leaves
that filter unapplied — every entry passes it, and membership in the
filtered list demands only the remaining conditions — rather than
matching no entries. -/
theorem ures_szuro_spec (l : List Entry) (kezdo veg : Datum)
    (ts : List Tipus) (ks : List String) (e : Entry) :
    (e ∈ szurt l kezdo veg [] ks ↔
      e ∈ l ∧ (Datum.dle kezdo e.datum = true ∧ Datum.dle e.datum veg = true) ∧
        (ks = [] ∨ e.kategoria ∈ ks)) ∧
    (e ∈ szurt l kezdo veg ts [] ↔
      e ∈ l ∧ (Datum.dle kezdo e.datum = true ∧ Datum.dle e.datum veg = true) ∧
        (ts = [] ∨ e.tipus ∈ ts)) := by
  constructor
  · cases ks with
    | nil => simp [szurt, List.mem_filter, maszk, datumSzuro, and_assoc]
    | cons a t => simp [szurt, List.mem_filter, maszk, datumSzuro, and_assoc]
  · cases ts with
    | nil => simp [szurt, List.mem_filter, maszk, datumSzuro, and_assoc]
    | cons a t => simp [szurt, List.mem_filter, maszk, datumSzuro, and_assoc]

theorem pyBackfill_entryToJson (e : Entry) :
    pyBackfill (entryToJson e) = Except.ok (entryToJson e) := rfl

theorem backfillAll_map_entryToJson (l : List Entry) :
    backfillAll (l.map entryToJson) = Except.ok (l.map entryToJson) := by
  induction l with
  | nil => rfl
  | cons e t ih =>
    simp [backfillAll, pyBackfill_entryToJson, ih]

theorem pyBackfill_obj (t : Json) (h : t.isObj = true) :
    pyBackfill t = Except.ok (backfillObj t) := by
  cases t with
  | obj fs =>
    by_cases hb : fs.any (fun p => decide (p.1 = "tipus")) = true
    · simp [pyBackfill, pyContains, backfillObj, hb, Bind.bind, Except.bind,
        Pure.pure, Except.pure]
    · simp [pyBackfill, pyContains, backfillObj, hb, Bind.bind, Except.bind,
        Pure.pure, Except.pure]
  | null => simp [Json.isObj] at h
  | bool b => simp [Json.isObj] at h
  | num q => simp [Json.isObj] at h
  | str s => simp [Json.isObj] at h
  | arr xs => simp [Json.isObj] at h

theorem backfillAll_objs (xs : List Json) (h : ∀ t ∈ xs, t.isObj = true) :
    backfillAll xs = Except.ok (xs.map backfillObj) := by
  induction xs with
  | nil => rfl
  | cons x t ih =>
    have hx := h x (List.mem_cons_self x t)
    have ht : ∀ y ∈ t, y.isObj = true :=
      fun y hy => h y (List.mem_cons_of_mem _ hy)
    simp [backfillAll, pyBackfill_obj x hx, ih ht]

theorem backfillObj_hasTipus (t : Json) (h : t.isObj = true) :
    hasTipusKey (backfillObj t) = true := by
  cases t with
  | obj fs =>
    by_cases hb : fs.any (fun p => decide (p.1 = "tipus")) = true
    · simp [backfillObj, hasTipusKey, hb]
    · simp [backfillObj, hasTipusKey, hb]
  | null => simp [Json.isObj] at h
  | bool b => simp [Json.isObj] at h
  | num q => simp [Json.isObj] at h
  | str s => simp [Json.isObj] at h
  | arr ys => simp [Json.isObj] at h

theorem backfillObj_of_hasTipus (t : Json) (h : hasTipusKey t = true) :
    backfillObj t = t := by
  cases t with
  | obj fs => simp [hasTipusKey] at h; simp [backfillObj, h]
  | null => rfl
  | bool b => rfl
  | num q => rfl
  | str s => rfl
  | arr ys => rfl

theorem backfillObj_of_missing (fs : List (String × Json))
    (h : hasTipusKey (Json.obj fs) = false) :
    backfillObj (Json.obj fs) = Json.obj (fs ++ [("tipus", Json.str "kiadas")]) := by
  have hb : (fs.any fun p => decide (p.1 = "tipus")) = false := h
  simp [backfillObj, hb]

theorem dictGet_backfillObj_of_missing (fs : List (String × Json))
    (h : hasTipusKey (Json.obj fs) = false) :
    dictGet (backfillObj (Json.obj fs)) "tipus" = some (Json.str "kiadas") := by
  rw [backfillObj_of_missing fs h]
  simp only [hasTipusKey, List.any_eq_false, decide_eq_true_eq, Prod.forall] at h
  have hnone : fs.find? (fun p => decide (p.1 = "tipus")) = none := by
    rw [List.find?_eq_none]
    intro x hx
    simp only [decide_eq_true_eq]
    exact h x.1 x.2 hx
  have hfind : (fs ++ [("tipus", Json.str "kiadas")]).find?
      (fun p => decide (p.1 = "tipus")) = some ("tipus", Json.str "kiadas") := by
    rw [List.find?_append, hnone]
    simp
  simp [dictGet, hfind]

theorem dictGet_backfill_missing (t : Json) (hobj : t.isObj = true)
    (hk : hasTipusKey t = false) :
    dictGet (backfillObj t) "tipus" = some (Json.str "kiadas") := by
  cases t with
  | obj fs => exact dictGet_backfillObj_of_missing fs hk
  | null => simp [Json.isObj] at hobj
  | bool b => simp [Json.isObj] at hobj
  | num q => simp [Json.isObj] at hobj
  | str s => simp [Json.isObj] at hobj
  | arr ys => simp [Json.isObj] at hobj

/-- C3: saving any entry list with `save_data` and loading it back with
`load_data` succeeds and returns exactly the saved records. -/
theorem mentes_betoltes_roundtrip (l : List Entry) :
    load_data (save_data l) = Except.ok (l.map entryToJson) := by
  simp [load_data, save_data, backfillAll_map_entryToJson l]

/-- C5: loading a persisted JSON array of records (objects) succeeds;
every returned record carries a `"tipus"` key; a record already carrying
one is returned unchanged, and a record lacking one is returned with its
fields unchanged plus `"tipus": "kiadas"` appended, so its kind reads as
expense. -/
theorem legacy_kind_spec (xs : List Json) (h : ∀ t ∈ xs, t.isObj = true) :
    ∃ ys, load_data (FileState.content (Json.arr xs)) = Except.ok ys ∧
      ys.length = xs.length ∧
      (∀ y ∈ ys, hasTipusKey y = true) ∧
      (∀ i, i < xs.length →
        ∃ x y, xs[i]? = some x ∧ ys[i]? = some y ∧
          (hasTipusKey x = true → y = x) ∧
          (hasTipusKey x = false →
            dictGet y "tipus" = some (Json.str "kiadas") ∧
            ∀ fs, x = Json.obj fs →
              y = Json.obj (fs ++ [("tipus", Json.str "kiadas")]))) := by
  refine ⟨xs.map backfillObj, ?_, by simp, ?_, ?_⟩
  · simp [load_data, backfillAll_objs xs h]
  · intro y hy
    rcases List.mem_map.mp hy with ⟨x, hx, rfl⟩
    exact backfillObj_hasTipus x (h x hx)
  · intro i hi
    refine ⟨xs[i], backfillObj xs[i], by simp [hi], by simp [hi], ?_, ?_⟩
    · intro hk
      exact backfillObj_of_hasTipus _ hk
    · intro hk
      have hobj : Json.isObj xs[i] = true := h _ (List.getElem_mem hi)
      constructor
      · exact dictGet_backfill_missing _ hobj hk
      · intro fs hfs
        rw [hfs] at hk ⊢
        exact backfillObj_of_missing fs hk

/-- Witness for C5: an array with one legacy record (no kind) and one
record that already has a kind. -/
theorem legacy_kind_spec_witness :
    (∀ t ∈ [Json.obj [("osszeg", Json.num 5)],
        Json.obj [("tipus", Json.str "bevetel")]], Json.isObj t = true) ∧
    (∃ ys, load_data (FileState.content (Json.arr
        [Json.obj [("osszeg", Json.num 5)],
         Json.obj [("tipus", Json.str "bevetel")]])) = Except.ok ys ∧
      ys.length = 2 ∧
      (∀ y ∈ ys, hasTipusKey y = true) ∧
      (∀ i, i < 2 →
        ∃ x y, [Json.obj [("osszeg", Json.num 5)],
            Json.obj [("tipus", Json.str "bevetel")]][i]? = some x ∧
          ys[i]? = some y ∧
          (hasTipusKey x = true → y = x) ∧
          (hasTipusKey x = false →
            dictGet y "tipus" = some (Json.str "kiadas") ∧
            ∀ fs, x = Json.obj fs →
              y = Json.obj (fs ++ [("tipus", Json.str "kiadas")])))) := by
  have hobj : ∀ t ∈ [Json.obj [("osszeg", Json.num 5)],
      Json.obj [("tipus", Json.str "bevetel")]], Json.isObj t = true := by
    intro t ht
    rcases List.mem_cons.mp ht with rfl | ht2
    · rfl
    rcases List.mem_cons.mp ht2 with rfl | ht3
    · rfl
    cases ht3
  exact ⟨hobj, legacy_kind_spec _ hobj⟩

/-- C6 counterexample: the persisted file holding the well-formed JSON
array `[1]` makes `load_data` raise an uncaught `TypeError` — the
membership test `"tipus" not in 1` of the compatibility loop is not a
`json.JSONDecodeError`, so the `except` clause does not catch it and the
exception escapes to the caller instead of an empty list. -/
theorem load_data_raises_counterexample :
    load_data (FileState.content (Json.arr [Json.num 1])) =
      Except.error () := rfl

/-- C6 amended: `load_data` returns `[]` without raising when the file
is missing, the content is malformed JSON, or the decoded value is not
an array, and succeeds without raising on every array of objects;
`load_settings` never raises for any file content and returns the empty
settings for a missing file, malformed JSON or a non-object value. (The
unamended claim fails: an array with a non-object element makes
`load_data` raise a `TypeError`.) -/
theorem failsoft_amended :
    load_data FileState.missing = Except.ok [] ∧
    load_data FileState.malformed = Except.ok [] ∧
    (∀ j : Json, (∀ xs, j ≠ Json.arr xs) →
      load_data (FileState.content j) = Except.ok []) ∧
    (∀ xs : List Json, (∀ t ∈ xs, t.isObj = true) →
      ∃ ys, load_data (FileState.content (Json.arr xs)) = Except.ok ys) ∧
    load_settings FileState.missing = [] ∧
    load_settings FileState.malformed = [] ∧
    (∀ fs, load_settings (FileState.content (Json.obj fs)) = fs) ∧
    (∀ j : Json, (∀ fs, j ≠ Json.obj fs) →
      load_settings (FileState.content j) = []) := by
  refine ⟨rfl, rfl, ?_, ?_, rfl, rfl, fun fs => rfl, ?_⟩
  · intro j hj
    cases j with
    | arr xs => exact absurd rfl (hj xs)
    | null => rfl
    | bool b => rfl
    | num q => rfl
    | str s => rfl
    | obj fs => rfl
  · intro xs h
    exact ⟨xs.map backfillObj, by simp [load_data, backfillAll_objs xs h]⟩
  · intro j hj
    cases j with
    | obj fs => exact absurd rfl (hj fs)
    | null => rfl
    | bool b => rfl
    | num q => rfl
    | str s => rfl
    | arr xs => rfl

/-- Witness for C6 (amended) at concrete file contents: a non-array JSON
value for `load_data`, a one-object array for `load_data`, and a
non-object JSON value for `load_settings`. -/
theorem failsoft_amended_witness :
    (∀ xs, Json.num 1 ≠ Json.arr xs) ∧
    load_data (FileState.content (Json.num 1)) = Except.ok [] ∧
    (∀ t ∈ [Json.obj []], Json.isObj t = true) ∧
    (∃ ys, load_data (FileState.content (Json.arr [Json.obj []])) =
      Except.ok ys) ∧
    (∀ fs, Json.str "x" ≠ Json.obj fs) ∧
    load_settings (FileState.content (Json.str "x")) = [] := by
  have h1 : ∀ xs, Json.num 1 ≠ Json.arr xs := fun _ h => Json.noConfusion h
  have h2 : ∀ fs, Json.str "x" ≠ Json.obj fs := fun _ h => Json.noConfusion h
  refine ⟨h1, ?_, by decide, ?_, h2, ?_⟩
  · exact failsoft_amended.2.2.1 (Json.num 1) h1
  · exact failsoft_amended.2.2.2.1 [Json.obj []] (by decide)
  · exact failsoft_amended.2.2.2.2.2.2.2 (Json.str "x") h2

/-- C7: on both the create form and the edit form, a submitted amount
≤ 0 is rejected with a user-visible error message, the entry list is
unchanged and nothing is persisted; an amount > 0 appends the new entry
(respectively overwrites the selected entry's five fields) and saves the
whole resulting list. -/
theorem beiras_validacio_spec (data : List Entry) (i : Nat) (datum : Datum)
    (osszeg : ℚ) (kategoria megjegyzes : String) (tipus_kod : Tipus) :
    (osszeg ≤ 0 →
      uj_tetel_submit data datum osszeg kategoria megjegyzes tipus_kod =
        ⟨data, none, true⟩ ∧
      edit_submit data i datum osszeg kategoria megjegyzes tipus_kod =
        ⟨data, none, true⟩) ∧
    (0 < osszeg →
      uj_tetel_submit data datum osszeg kategoria megjegyzes tipus_kod =
        ⟨data ++ [⟨datum, osszeg, kategoria, megjegyzes.trim, tipus_kod⟩],
          some (save_data
            (data ++ [⟨datum, osszeg, kategoria, megjegyzes.trim, tipus_kod⟩])),
          false⟩ ∧
      edit_submit data i datum osszeg kategoria megjegyzes tipus_kod =
        ⟨data.set i ⟨datum, osszeg, kategoria, megjegyzes.trim, tipus_kod⟩,
          some (save_data
            (data.set i ⟨datum, osszeg, kategoria, megjegyzes.trim, tipus_kod⟩)),
          false⟩) := by
  constructor
  · intro h
    constructor
    · rw [uj_tetel_submit, if_pos h]
    · rw [edit_submit, if_pos h]
  · intro h
    have h2 : ¬ osszeg ≤ 0 := not_le.mpr h
    constructor
    · rw [uj_tetel_submit, if_neg h2]
    · rw [edit_submit, if_neg h2]

/-- Witness for C7: a rejected amount 0 and an accepted amount 100 on a
one-entry list. -/
theorem beiras_validacio_spec_witness :
    ((0 : ℚ) ≤ 0 ∧
      uj_tetel_submit [peldaKiadas] ⟨2024, 2, 1⟩ 0 "Egyéb" " x " Tipus.kiadas =
        ⟨[peldaKiadas], none, true⟩ ∧
      edit_submit [peldaKiadas] 0 ⟨2024, 2, 1⟩ 0 "Egyéb" " x " Tipus.kiadas =
        ⟨[peldaKiadas], none, true⟩) ∧
    ((0 : ℚ) < 100 ∧
      uj_tetel_submit [peldaKiadas] ⟨2024, 2, 1⟩ 100 "Egyéb" " x " Tipus.kiadas =
        ⟨[peldaKiadas] ++ [⟨⟨2024, 2, 1⟩, 100, "Egyéb", " x ".trim, Tipus.kiadas⟩],
          some (save_data ([peldaKiadas] ++
            [⟨⟨2024, 2, 1⟩, 100, "Egyéb", " x ".trim, Tipus.kiadas⟩])),
          false⟩ ∧
      edit_submit [peldaKiadas] 0 ⟨2024, 2, 1⟩ 100 "Egyéb" " x " Tipus.kiadas =
        ⟨[peldaKiadas].set 0 ⟨⟨2024, 2, 1⟩, 100, "Egyéb", " x ".trim, Tipus.kiadas⟩,
          some (save_data ([peldaKiadas].set 0
            ⟨⟨2024, 2, 1⟩, 100, "Egyéb", " x ".trim, Tipus.kiadas⟩)),
          false⟩) :=
  ⟨⟨le_refl 0,
    (beiras_validacio_spec [peldaKiadas] 0 ⟨2024, 2, 1⟩ 0 "Egyéb" " x "
      Tipus.kiadas).1 (le_refl 0)⟩,
   ⟨by norm_num,
    (beiras_validacio_spec [peldaKiadas] 0 ⟨2024, 2, 1⟩ 100 "Egyéb" " x "
      Tipus.kiadas).2 (by norm_num)⟩⟩

/-- C8: deleting the entry at a valid position removes exactly that
record — the resulting list is the original with the position-i element
removed: records before i keep their positions and fields, records after
i shift down by one with their fields unchanged — and the resulting
list is what gets saved. -/
theorem torles_spec (data : List Entry) (i : Nat) (h : i < data.length) :
    (torles_submit data i).store = data.take i ++ data.drop (i + 1) ∧
    (torles_submit data i).store.length = data.length - 1 ∧
    (∀ j, j < i → ((torles_submit data i).store)[j]? = data[j]?) ∧
    (∀ j, i ≤ j → ((torles_submit data i).store)[j]? = data[j + 1]?) ∧
    (torles_submit data i).saved =
      some (save_data ((torles_submit data i).store)) ∧
    (torles_submit data i).hiba = false := by
  refine ⟨List.eraseIdx_eq_take_drop_succ data i,
    List.length_eraseIdx_of_lt h, ?_, ?_, rfl, rfl⟩
  · intro j hj
    exact List.getElem?_eraseIdx_of_lt data i j hj
  · intro j hj
    exact List.getElem?_eraseIdx_of_ge data i j hj

/-- Witness for C8: deleting position 0 of the two-entry example list. -/
theorem torles_spec_witness :
    0 < peldaLista.length ∧
    ((torles_submit peldaLista 0).store =
        peldaLista.take 0 ++ peldaLista.drop 1 ∧
      (torles_submit peldaLista 0).store.length = peldaLista.length - 1 ∧
      (∀ j, j < 0 → ((torles_submit peldaLista 0).store)[j]? = peldaLista[j]?) ∧
      (∀ j, 0 ≤ j →
        ((torles_submit peldaLista 0).store)[j]? = peldaLista[j + 1]?) ∧
      (torles_submit peldaLista 0).saved =
        some (save_data ((torles_submit peldaLista 0).store)) ∧
      (torles_submit peldaLista 0).hiba = false) :=
  ⟨by decide, torles_spec peldaLista 0 (by decide)⟩

end Koltsegkoveto
